import Mathlib

/-!
Shallow embedding of the bencoderpc package (client.go, server part and
client part) for checking its natural-language specification.

Bytes on the wire are modelled as `List Nat`; a captured, undecoded
bencode fragment (bencode.RawMessage) is such a byte list.  Go maps
keyed by uint64 are modelled as association lists with unique keys
(insert overwrites, delete removes, lookup returns an Option).  A Go
pointer that may be nil is modelled as an `Option`.  Decoding from the
connection is abstracted as an `Except String` input: the decoded value
when the external bencode decoder succeeds, an error otherwise.
-/

namespace Bencoderpc

/-- bencode.RawMessage: raw encoded bytes captured without interpretation. -/
abbrev RawMessage := List Nat

/-- 2 to the power 64: the modulus of the Go uint64 sequence counter. -/
def U64 : Nat := 18446744073709551616

/-- Go map read `m[k]`: first entry with key `k`, if any. -/
def mapLookup {α : Type} : List (Nat × α) → Nat → Option α
  | [], _ => none
  | p :: m, k => if p.1 = k then some p.2 else mapLookup m k

/-- Go map `delete(m, k)`: remove every entry with key `k`. -/
def mapDelete {α : Type} : List (Nat × α) → Nat → List (Nat × α)
  | [], _ => []
  | p :: m, k => if p.1 = k then mapDelete m k else p :: mapDelete m k

/-- Go map write `m[k] = v`: overwrite any entry with key `k`. -/
def mapInsert {α : Type} (m : List (Nat × α)) (k : Nat) (v : α) : List (Nat × α) :=
  (k, v) :: mapDelete m k

/-- serverRequest: fields Id (`i`, nil-able pointer), Method (`m`),
Params (`p`, nil-able pointer), as left by reset-then-decode. -/
structure ServerRequest where
  id : Option RawMessage
  method : String
  params : Option RawMessage
deriving DecidableEq

/-- serverRequest.reset: Id = nil, Method = empty, Params = nil. -/
def ServerRequest.reset : ServerRequest :=
  { id := none, method := "", params := none }

/-- serverResponse: fields Error (`e`), Id (`i`), Result (`r`).
The result is whatever value the dispatch substrate handed over. -/
structure ServerResponse where
  error : String
  id : RawMessage
  result : Option RawMessage
deriving DecidableEq

/-- The relevant fields of rpc.Request filled by ReadRequestHeader. -/
structure RpcRequest where
  serviceMethod : String
  seq : Nat
deriving DecidableEq

/-- The relevant fields of rpc.Response passed to WriteResponse. -/
structure RpcResponse where
  serviceMethod : String
  seq : Nat
  error : String
deriving DecidableEq

/-- serverCodec state: the seq counter, the pending map from internal
sequence number to the stored original-id pointer, and the request
work space c.req. -/
structure ServerCodec where
  seq : Nat
  pending : List (Nat × Option RawMessage)
  req : ServerRequest
deriving DecidableEq

/-- NewServerCodec: seq starts at zero, pending empty. -/
def newServerCodec : ServerCodec :=
  { seq := 0, pending := [], req := ServerRequest.reset }

/-- The error string of errMissingParams. -/
def errMissingParams : String := "bencoderpc: request body missing params"

/-- The error string returned by WriteResponse on an unknown sequence number. -/
def errInvalidSeq : String := "invalid sequence number in response"

/-- var zero = bencode.RawMessage([]byte("i0e")): the bytes 105, 48, 101. -/
def zero : RawMessage := [105, 48, 101]

/-- serverCodec.ReadRequestHeader: reset c.req, decode into it (the
decode outcome is the `decoded` input), propagate a decode error,
otherwise set r.ServiceMethod, increment c.seq (uint64 wrap), store the
original id pointer in pending only when it is non-nil, clear c.req.Id,
and set r.Seq to the new counter value. -/
def readRequestHeader (c : ServerCodec) (decoded : Except String ServerRequest) :
    Except String (ServerCodec × RpcRequest) :=
  match decoded with
  | .error e => .error e
  | .ok q =>
    let seq := (c.seq + 1) % U64
    let pending := if q.id.isSome then mapInsert c.pending seq q.id else c.pending
    .ok ({ seq := seq, pending := pending, req := { q with id := none } },
         { serviceMethod := q.method, seq := seq })

/-- serverCodec.ReadRequestBody: a nil target is a no-op; with a target,
nil c.req.Params yields errMissingParams, otherwise the stored params
bytes are unmarshalled into the target (external decode, may fail). -/
def readRequestBody (c : ServerCodec) (xGiven : Bool)
    (unmarshal : RawMessage → Except String Unit) : Except String Unit :=
  if xGiven = false then .ok ()
  else
    match c.req.params with
    | none => .error errMissingParams
    | some p => unmarshal p

/-- serverCodec.WriteResponse: look up r.Seq in pending; a miss returns
the invalid-sequence error with nothing written; a hit deletes the
entry, substitutes the `zero` sentinel for a nil stored pointer, and
encodes the serverResponse onto the connection (returned here as the
written value). -/
def writeResponse (c : ServerCodec) (r : RpcResponse) (x : Option RawMessage) :
    Except String (ServerCodec × ServerResponse) :=
  match mapLookup c.pending r.seq with
  | none => .error errInvalidSeq
  | some b =>
    let pending := mapDelete c.pending r.seq
    let id := match b with
      | none => zero
      | some raw => raw
    let e := if r.error ≠ "" then r.error else ""
    .ok ({ c with pending := pending }, { error := e, id := id, result := x })

/-- clientResponse: fields Error (`e`), Id (`i`), Result (`r`, nil-able
pointer to captured raw bytes). -/
structure ClientResponse where
  error : String
  id : Nat
  result : Option RawMessage
deriving DecidableEq

/-- clientResponse.reset: Error = empty, Id = 0, Result = nil. -/
def ClientResponse.reset : ClientResponse :=
  { error := "", id := 0, result := none }

/-- A wire response as the bencode decoder sees it: each field is
`none` when its key (`e`, `i`, `r`) is absent from the dictionary. -/
structure WireResponseMsg where
  error : Option String
  id : Option Nat
  result : Option RawMessage
deriving DecidableEq

/-- Decoding a wire dictionary into an existing clientResponse struct:
a present key overwrites the field, an absent key leaves the previous
field value untouched. -/
def decodeClientResponse (prev : ClientResponse) (m : WireResponseMsg) : ClientResponse :=
  { error := m.error.getD prev.error,
    id := m.id.getD prev.id,
    result := match m.result with
      | some v => some v
      | none => prev.result }

/-- clientRequest: fields Id (`i`), Method (`m`), Params (`p`). -/
structure ClientRequest where
  id : Nat
  method : String
  params : Option RawMessage
deriving DecidableEq

/-- The relevant fields of rpc.Response filled by ReadResponseHeader. -/
structure RpcClientResponse where
  serviceMethod : String
  seq : Nat
  error : String
deriving DecidableEq

/-- clientCodec state: the pending map from request id to method name,
and the response work space c.resp. -/
structure ClientCodec where
  pending : List (Nat × String)
  resp : ClientResponse
deriving DecidableEq

/-- NewClientCodec: pending empty. -/
def newClientCodec : ClientCodec :=
  { pending := [], resp := ClientResponse.reset }

/-- clientCodec.WriteRequest: record the method under r.Seq in pending,
then encode the clientRequest (returned here as the written value). -/
def writeRequest (c : ClientCodec) (seq : Nat) (serviceMethod : String)
    (params : Option RawMessage) : ClientCodec × ClientRequest :=
  ({ c with pending := mapInsert c.pending seq serviceMethod },
   { id := seq, method := serviceMethod, params := params })

/-- clientCodec.ReadResponseHeader: reset c.resp, decode into it (the
decode outcome is the `decoded` input), propagate a decode error,
otherwise resolve the method by a pending lookup at the decoded id (a
Go map miss reads the empty string), delete that key, set r.Seq to the
decoded id, and set r.Error only when the decoded error is non-empty. -/
def readResponseHeader (c : ClientCodec) (decoded : Except String WireResponseMsg) :
    Except String (ClientCodec × RpcClientResponse) :=
  match decoded with
  | .error e => .error e
  | .ok m =>
    let resp := decodeClientResponse ClientResponse.reset m
    let sm := (mapLookup c.pending resp.id).getD ""
    let pending := mapDelete c.pending resp.id
    let e := if resp.error ≠ "" then resp.error else ""
    .ok ({ pending := pending, resp := resp },
         { serviceMethod := sm, seq := resp.id, error := e })

/-- clientCodec.ReadResponseBody: a nil target is a no-op returning no
error; with a target the code dereferences the stored result pointer
unconditionally, so a nil stored result is a nil-pointer dereference, a
runtime panic, modelled by the outer `none`; a non-nil stored result is
unmarshalled into the target (external decode, may fail). -/
def readResponseBody (c : ClientCodec) (xGiven : Bool)
    (unmarshal : RawMessage → Except String Unit) : Option (Except String Unit) :=
  if xGiven = false then some (.ok ())
  else
    match c.resp.result with
    | none => none
    | some raw => some (unmarshal raw)

/-- The serving-loop states of the spec. -/
inductive ServeState where
  | reading
  | closed
deriving DecidableEq

/-- Modelled from the spec: the serving loop that ServeConn delegates to
(rpc.ServeCodec of net/rpc, external to this repository) repeatedly
reads a request through the codec and, on a decode failure, stops and
returns; here it consumes a list of decode outcomes and reports the
final codec state, the loop state reached, and how many reads it
performed.  An exhausted outcome list leaves the loop still reading
(blocked on further input). -/
def serveLoop : ServerCodec → List (Except String ServerRequest) → ServerCodec × ServeState × Nat
  | c, [] => (c, ServeState.reading, 0)
  | c, d :: ds =>
    match readRequestHeader c d with
    | .error _ => (c, ServeState.closed, 1)
    | .ok (c2, _) =>
      let p := serveLoop c2 ds
      (p.1, p.2.1, p.2.2 + 1)

/-- Reading a whole list of successfully decoded requests through
serverCodec.ReadRequestHeader, collecting the assigned r.Seq values. -/
def runReads : ServerCodec → List ServerRequest → ServerCodec × List Nat
  | c, [] => (c, [])
  | c, q :: qs =>
    match readRequestHeader c (.ok q) with
    | .error _ => (c, [])
    | .ok (c2, r) =>
      let p := runReads c2 qs
      (p.1, r.seq :: p.2)

/-- The atomic steps serverCodec.WriteResponse performs, in program
order, for the lock-scope analysis. -/
inductive WRStep where
  | lockAcquire
  | pendingLookup
  | pendingDelete
  | lockRelease
  | returnError
  | encodeWrite
deriving DecidableEq

/-- The straight-line step trace of serverCodec.WriteResponse,
transliterated from the code: Lock; pending lookup; on a miss Unlock
and return the error; on a hit delete the entry, Unlock, and only then
encode the response onto the connection. -/
def writeResponseSteps (found : Bool) : List WRStep :=
  if found then
    [WRStep.lockAcquire, WRStep.pendingLookup, WRStep.pendingDelete,
     WRStep.lockRelease, WRStep.encodeWrite]
  else
    [WRStep.lockAcquire, WRStep.pendingLookup, WRStep.lockRelease,
     WRStep.returnError]

/-- The mutex is held when step `i` of the trace runs: strictly more
acquires than releases among the steps before it, counting the acquire
itself as holding the lock from its own step on. -/
def heldAt (steps : List WRStep) (i : Nat) : Prop :=
  (steps.take i).count WRStep.lockRelease < (steps.take (i + 1)).count WRStep.lockAcquire

/-- Every occurrence of step `s` in the trace runs with the mutex held. -/
def stepProtected (steps : List WRStep) (s : WRStep) : Prop :=
  ∀ i < steps.length, steps.get? i = some s → heldAt steps i

instance (steps : List WRStep) (i : Nat) : Decidable (heldAt steps i) := by
  unfold heldAt; infer_instance

instance (steps : List WRStep) (s : WRStep) : Decidable (stepProtected steps s) := by
  unfold stepProtected; infer_instance

/-- A trivially succeeding external unmarshal, for concrete runs. -/
def trivialUnmarshal : RawMessage → Except String Unit := fun _ => .ok ()

/-- A concrete request carrying an id (the bytes of "i7e"). -/
def reqWithId : ServerRequest :=
  { id := some [105, 55, 101], method := "Arith.Add", params := some [100, 101] }

/-- A concrete request with no decodable id. -/
def reqNoId : ServerRequest :=
  { id := none, method := "Arith.Add", params := some [100, 101] }

/-- A concrete request with no params field. -/
def reqNoParams : ServerRequest :=
  { id := none, method := "Arith.Add", params := none }

/-- A concrete wire response with no error field and no result field. -/
def respNoResult : WireResponseMsg :=
  { error := none, id := some 7, result := none }

/-- A concrete wire response omitting both the error and the id field. -/
def respBare : WireResponseMsg :=
  { error := none, id := none, result := some [105, 53, 101] }

/-- A concrete client codec with one pending call, id 7. -/
def clientWith7 : ClientCodec :=
  { pending := [(7, "Arith.Add")], resp := ClientResponse.reset }

theorem mapLookup_mapInsert_self {α : Type} (m : List (Nat × α)) (k : Nat) (v : α) :
    mapLookup (mapInsert m k v) k = some v := by
  simp [mapInsert, mapLookup]

theorem mapLookup_mapDelete_self {α : Type} (m : List (Nat × α)) (k : Nat) :
    mapLookup (mapDelete m k) k = none := by
  induction m with
  | nil => rfl
  | cons p m ih =>
    by_cases h : p.1 = k
    · simpa [mapDelete, h] using ih
    · simp [mapDelete, mapLookup, h, ih]

theorem mapLookup_mapDelete_ne {α : Type} (m : List (Nat × α)) (k j : Nat) (h : j ≠ k) :
    mapLookup (mapDelete m k) j = mapLookup m j := by
  induction m with
  | nil => rfl
  | cons p m ih =>
    rw [mapDelete]
    by_cases h1 : p.1 = k
    · rw [if_pos h1, ih]
      have h2 : ¬ p.1 = j := fun hh => h (hh ▸ h1)
      rw [mapLookup, if_neg h2]
    · rw [if_neg h1]
      show (if p.1 = j then some p.2 else mapLookup (mapDelete m k) j) = _
      rw [ih, mapLookup]

theorem mapDelete_of_lookup_none {α : Type} (m : List (Nat × α)) (k : Nat)
    (h : mapLookup m k = none) : mapDelete m k = m := by
  induction m with
  | nil => rfl
  | cons p m ih =>
    by_cases h1 : p.1 = k
    · rw [mapLookup, if_pos h1] at h
      exact absurd h (by simp)
    · rw [mapLookup, if_neg h1] at h
      rw [mapDelete, if_neg h1, ih h]

theorem runReads_seqs (qs : List ServerRequest) : ∀ c : ServerCodec,
    c.seq + qs.length < U64 →
    (runReads c qs).2 = List.range' (c.seq + 1) qs.length := by
  induction qs with
  | nil => intro c _; rfl
  | cons q qs ih =>
    intro c h
    simp only [List.length_cons] at h
    have hmod : (c.seq + 1) % U64 = c.seq + 1 := Nat.mod_eq_of_lt (by omega)
    have ih2 := ih { seq := (c.seq + 1) % U64,
                     pending := if q.id.isSome then
                         mapInsert c.pending ((c.seq + 1) % U64) q.id
                       else c.pending,
                     req := { q with id := none } }
      (by show (c.seq + 1) % U64 + qs.length < U64
          rw [hmod]; omega)
    have hstep : (runReads c (q :: qs)).2
        = ((c.seq + 1) % U64) ::
          (runReads
            { seq := (c.seq + 1) % U64,
              pending := if q.id.isSome then
                  mapInsert c.pending ((c.seq + 1) % U64) q.id
                else c.pending,
              req := { q with id := none } } qs).2 := rfl
    rw [hstep, ih2]
    show ((c.seq + 1) % U64) :: List.range' ((c.seq + 1) % U64 + 1) qs.length
        = List.range' (c.seq + 1) (qs.length + 1)
    rw [hmod]
    simp [List.range']

/-- C1: for every request read by the server codec that carries an
identifier, the stored pending entry holds exactly those identifier
bytes, and WriteResponse for the assigned sequence number, from any
codec state preserving that entry, writes a serverResponse whose id is
byte-for-byte those same bytes, whatever their shape. -/
theorem c1_identifier_fidelity (c : ServerCodec) (q : ServerRequest) (raw : RawMessage)
    (hid : q.id = some raw) :
    ∃ c2 r, readRequestHeader c (.ok q) = .ok (c2, r) ∧
      ∀ cw : ServerCodec, mapLookup cw.pending r.seq = mapLookup c2.pending r.seq →
        ∀ sm e x, ∃ c3 resp,
          writeResponse cw { serviceMethod := sm, seq := r.seq, error := e } x
            = .ok (c3, resp) ∧ resp.id = raw := by
  refine ⟨_, _, rfl, ?_⟩
  intro cw hpend sm e x
  have hl : mapLookup cw.pending ((c.seq + 1) % U64) = some (some raw) := by
    rw [hpend]
    simp [hid, mapLookup_mapInsert_self]
  exact ⟨{ cw with pending := mapDelete cw.pending ((c.seq + 1) % U64) },
         { error := if e ≠ "" then e else "", id := raw, result := x },
         by simp [writeResponse, hl], rfl⟩

/-- C1 witness: a concrete request with id bytes "i7e" read by a fresh
codec is answered with exactly those id bytes. -/
theorem c1_identifier_fidelity_witness :
    ∃ c2 r, readRequestHeader newServerCodec (.ok reqWithId) = .ok (c2, r) ∧
      ∃ c3 resp,
        writeResponse c2 { serviceMethod := "Arith.Add", seq := r.seq, error := "" } none
          = .ok (c3, resp) ∧ resp.id = [105, 55, 101] := by
  obtain ⟨c2, r, h1, h2⟩ := c1_identifier_fidelity newServerCodec reqWithId [105, 55, 101] rfl
  exact ⟨c2, r, h1, h2 c2 rfl "Arith.Add" "" none⟩

/-- C2: evaluation at the failing input: reading a request with no
decodable id assigns sequence number 1 but stores no pending entry, so
WriteResponse for sequence number 1 returns the invalid-sequence error
instead of writing a response bearing the `zero` sentinel id. -/
theorem c2_missing_id_write_rejected :
    readRequestHeader newServerCodec (.ok reqNoId)
      = .ok ({ seq := 1, pending := [],
               req := { id := none, method := "Arith.Add", params := some [100, 101] } },
             { serviceMethod := "Arith.Add", seq := 1 }) ∧
    writeResponse
        { seq := 1, pending := [],
          req := { id := none, method := "Arith.Add", params := some [100, 101] } }
        { serviceMethod := "Arith.Add", seq := 1, error := "" } none
      = .error errInvalidSeq := by
  constructor <;> rfl

/-- C3: with a nil target ReadResponseBody is a no-op returning no
error, but at the failing input, a decoded response carrying no result
field and a non-nil target, the code dereferences the nil stored result
pointer, a runtime panic (the `none` outcome), not an error return. -/
theorem c3_missing_result_crashes :
    ∃ c2 r, readResponseHeader clientWith7 (.ok respNoResult) = .ok (c2, r) ∧
      r.error = "" ∧
      readResponseBody c2 false trivialUnmarshal = some (.ok ()) ∧
      readResponseBody c2 true trivialUnmarshal = none := by
  exact ⟨_, _, rfl, rfl, rfl, rfl⟩

/-- C4: WriteResponse on a sequence number with no pending entry
returns an error with nothing written, and on a present entry removes
exactly that entry: afterwards the key is gone, every other key is
untouched, and a second WriteResponse for the same key errors. -/
theorem c4_writeResponse_pending (c : ServerCodec) (r : RpcResponse) (x : Option RawMessage) :
    (mapLookup c.pending r.seq = none →
      writeResponse c r x = .error errInvalidSeq) ∧
    (∀ b, mapLookup c.pending r.seq = some b →
      ∃ c2 resp, writeResponse c r x = .ok (c2, resp) ∧
        mapLookup c2.pending r.seq = none ∧
        (∀ k, k ≠ r.seq → mapLookup c2.pending k = mapLookup c.pending k) ∧
        ∀ x2, writeResponse c2 r x2 = .error errInvalidSeq) := by
  constructor
  · intro h
    simp [writeResponse, h]
  · intro b h
    refine ⟨{ c with pending := mapDelete c.pending r.seq },
            { error := if r.error ≠ "" then r.error else "",
              id := b.getD zero,
              result := x },
            by cases b <;> simp [writeResponse, h, Option.getD], ?_, ?_, ?_⟩
    · exact mapLookup_mapDelete_self c.pending r.seq
    · intro k hk
      exact mapLookup_mapDelete_ne c.pending r.seq k hk
    · intro x2
      simp [writeResponse, mapLookup_mapDelete_self]

/-- C4 witness: a concrete codec whose pending table holds key 1. -/
theorem c4_writeResponse_pending_witness :
    ∃ c2 resp,
      writeResponse
          { seq := 1, pending := [(1, some [105, 55, 101])], req := ServerRequest.reset }
          { serviceMethod := "Arith.Add", seq := 1, error := "" } none = .ok (c2, resp) ∧
      mapLookup c2.pending 1 = none ∧
      (∀ k, k ≠ 1 →
        mapLookup c2.pending k
          = mapLookup ([(1, some [105, 55, 101])] : List (Nat × Option RawMessage)) k) ∧
      ∀ x2, writeResponse c2 { serviceMethod := "Arith.Add", seq := 1, error := "" } x2
          = .error errInvalidSeq :=
  (c4_writeResponse_pending
    { seq := 1, pending := [(1, some [105, 55, 101])], req := ServerRequest.reset }
    { serviceMethod := "Arith.Add", seq := 1, error := "" } none).2
    (some [105, 55, 101]) rfl

/-- C5: a decoded wire response whose id matches no pending call does
not abort the connection: ReadResponseHeader returns without error,
reports the empty service method, leaves the pending table unchanged,
and surfaces the unmatched id as the returned sequence number. -/
theorem c5_unknown_id (c : ClientCodec) (m : WireResponseMsg)
    (hmiss : mapLookup c.pending (m.id.getD 0) = none) :
    ∃ c2 r, readResponseHeader c (.ok m) = .ok (c2, r) ∧
      r.serviceMethod = "" ∧ c2.pending = c.pending ∧ r.seq = m.id.getD 0 := by
  refine ⟨_, _, rfl, ?_, ?_, rfl⟩
  · simp [decodeClientResponse, ClientResponse.reset, hmiss]
  · simpa [decodeClientResponse, ClientResponse.reset]
      using mapDelete_of_lookup_none c.pending (m.id.getD 0) hmiss

/-- C5 witness: a response with id 9 against a pending table holding
only id 3. -/
theorem c5_unknown_id_witness :
    ∃ c2 r, readResponseHeader { pending := [(3, "Arith.Mul")], resp := ClientResponse.reset }
        (.ok { error := none, id := some 9, result := none }) = .ok (c2, r) ∧
      r.serviceMethod = "" ∧ c2.pending = [(3, "Arith.Mul")] ∧ r.seq = 9 :=
  c5_unknown_id { pending := [(3, "Arith.Mul")], resp := ClientResponse.reset }
    { error := none, id := some 9, result := none } rfl

/-- C6: after the server codec reads a request with no params field,
ReadRequestBody with a target fails with the distinguished
errMissingParams, ReadRequestBody with a nil target is a no-op
returning no error, and the header read itself succeeded. -/
theorem c6_missing_params (c : ServerCodec) (q : ServerRequest)
    (hp : q.params = none) (u : RawMessage → Except String Unit) :
    ∃ c2 r, readRequestHeader c (.ok q) = .ok (c2, r) ∧
      readRequestBody c2 true u = .error errMissingParams ∧
      readRequestBody c2 false u = .ok () := by
  refine ⟨_, _, rfl, ?_, rfl⟩
  simp [readRequestBody, hp]

/-- C6 witness: a concrete request with no params field. -/
theorem c6_missing_params_witness :
    ∃ c2 r, readRequestHeader newServerCodec (.ok reqNoParams) = .ok (c2, r) ∧
      readRequestBody c2 true trivialUnmarshal = .error errMissingParams ∧
      readRequestBody c2 false trivialUnmarshal = .ok () :=
  c6_missing_params newServerCodec reqNoParams rfl trivialUnmarshal

/-- C7 counterexample: in the step trace of WriteResponse for a found
pending entry it is not the case that both the pending-table mutation
and the physical encode run under the mutex. -/
theorem c7_lock_counterexample :
    ¬ (stepProtected (writeResponseSteps true) WRStep.pendingDelete ∧
       stepProtected (writeResponseSteps true) WRStep.encodeWrite) := by
  decide

/-- C7 amended: the pending-table mutation runs with the mutex held,
but the mutex is released before the response is encoded onto the
connection, so the physical write is not protected by that lock. -/
theorem c7_lock_scope :
    stepProtected (writeResponseSteps true) WRStep.pendingDelete ∧
    WRStep.encodeWrite ∈ writeResponseSteps true ∧
    ¬ stepProtected (writeResponseSteps true) WRStep.encodeWrite := by
  decide

/-- C8: reading any list of fewer than 2^64 requests from a fresh
server codec assigns the sequence numbers 1, 2, 3, ... in order,
whether or not each request carries an id: the numbers start at 1, are
strictly increasing, and are never reused. -/
theorem c8_sequence_counter (qs : List ServerRequest) (h : qs.length < U64) :
    (runReads newServerCodec qs).2 = List.range' 1 qs.length ∧
    (runReads newServerCodec qs).2.Pairwise (· < ·) := by
  have h0 : newServerCodec.seq + qs.length < U64 := by simpa [newServerCodec] using h
  have he := runReads_seqs qs newServerCodec h0
  rw [show newServerCodec.seq + 1 = 1 from rfl] at he
  exact ⟨he, by rw [he]; exact List.pairwise_lt_range' 1 qs.length⟩

/-- C8 witness: two concrete requests, the first with an id and the
second without, get sequence numbers 1 and 2. -/
theorem c8_sequence_counter_witness :
    (runReads newServerCodec [reqWithId, reqNoId]).2 = List.range' 1 2 ∧
    (runReads newServerCodec [reqWithId, reqNoId]).2.Pairwise (· < ·) :=
  c8_sequence_counter [reqWithId, reqNoId] (by decide)

/-- C9: a decode failure is propagated by ReadRequestHeader unchanged,
and the serving loop that hits it performs that single read, moves to
the closed state, and returns, whatever input would have followed. -/
theorem c9_decode_failure_terminates (c : ServerCodec) (e : String)
    (ds : List (Except String ServerRequest)) :
    readRequestHeader c (.error e) = .error e ∧
    serveLoop c (.error e :: ds) = (c, ServeState.closed, 1) :=
  ⟨rfl, rfl⟩

/-- C10: ReadResponseHeader decodes into a freshly reset response
struct, so an absent error field yields a success descriptor (empty
error string), and an absent id field is treated as id 0: the pending
entry for key 0 is looked up and deleted, sequence number 0 is
returned, and no error is reported for either omission. -/
theorem c10_reset_defaults (c : ClientCodec) (m : WireResponseMsg) :
    ∃ c2 r, readResponseHeader c (.ok m) = .ok (c2, r) ∧
      (m.error = none → r.error = "") ∧
      (m.id = none →
        r.seq = 0 ∧ r.serviceMethod = (mapLookup c.pending 0).getD "" ∧
        c2.pending = mapDelete c.pending 0) := by
  refine ⟨_, _, rfl, ?_, ?_⟩
  · intro he
    simp [decodeClientResponse, ClientResponse.reset, he]
  · intro hid
    refine ⟨?_, ?_, ?_⟩ <;> simp [decodeClientResponse, ClientResponse.reset, hid]

/-- C10 witness: a concrete response omitting the error and id fields,
read by a codec with one pending call under key 7. -/
theorem c10_reset_defaults_witness :
    ∃ c2 r, readResponseHeader clientWith7 (.ok respBare) = .ok (c2, r) ∧
      r.error = "" ∧ r.seq = 0 ∧
      r.serviceMethod = (mapLookup clientWith7.pending 0).getD "" ∧
      c2.pending = mapDelete clientWith7.pending 0 := by
  obtain ⟨c2, r, h1, h2, h3⟩ := c10_reset_defaults clientWith7 respBare
  exact ⟨c2, r, h1, h2 rfl, (h3 rfl).1, (h3 rfl).2.1, (h3 rfl).2.2⟩

end Bencoderpc
